import Mathlib

/-!
Formal model of the supavoice capture/transcription core.

Each definition is a shallow embedding of a function of the Rust sources
(`src-tauri/src/audio/recorder.rs`, `src-tauri/src/main.rs`,
`src-tauri/src/models/registry.rs`, `src-tauri/src/transcription/whisper.rs`).
Floating-point values are modelled as exact rationals, machine integers as
`Int`/`Nat`, fallible paths as `Except`/explicit outcome types.
-/

namespace Supavoice

/-! ## Capture and resample (`audio/recorder.rs`) -/

/-- The fixed target sample rate (`AudioRecorder::new`, whisper `SAMPLE_RATE`). -/
def SAMPLE_RATE : ℕ := 16000

/-- Truncation of a rational toward zero, modelling Rust `as i16` on an
in-range float (`(mono_sample.clamp(-1.0, 1.0) * i16::MAX as f32) as i16`). -/
def ratTrunc (q : ℚ) : ℤ := q.num / (q.den : ℤ)

/-- Conversion of one mono sample to a 16-bit integer, from
`build_input_stream`: clamp to [-1, 1], scale by `i16::MAX` (32767), cast. -/
def toI16Sample (mono : ℚ) : ℤ := ratTrunc (max (-1) (min mono 1) * 32767)

/-- Resampling ratio, from `build_input_stream`:
`resample_ratio = sample_rate / target_sample_rate`. -/
def resample_ratio (sampleRate : ℚ) : ℚ := sampleRate / 16000

/-- One iteration of the per-frame loop of `build_input_stream`: the state is
the fractional index accumulator and the samples written so far.  The code
checks `*index >= 1.0` first; if so it consumes one unit and writes the
clamped, scaled sample, and in every case it then advances the accumulator by
`1.0 / resample_ratio`. -/
def resampleStep (ratio : ℚ) (st : ℚ × List ℤ) (mono : ℚ) : ℚ × List ℤ :=
  if 1 ≤ st.1 then (st.1 - 1 + 1 / ratio, st.2 ++ [toI16Sample mono])
  else (st.1 + 1 / ratio, st.2)

/-- The fold of `resampleStep` over the mono samples of one callback batch. -/
def process_mono (ratio : ℚ) (st : ℚ × List ℤ) (monos : List ℚ) : ℚ × List ℤ :=
  monos.foldl (resampleStep ratio) st

/-- Channel averaging of one frame, from `build_input_stream`: sum of the
normalized channel samples divided by the channel count. -/
def frame_mono (channels : ℕ) (frame : List ℚ) : ℚ := frame.sum / channels

/-- The device-callback body of `build_input_stream`.  `lockOk` is the result
of `writer.try_lock()`: when the attempt fails the whole batch is skipped and
the state (accumulator and sink) is returned unchanged.  `st.2 = none` models
a sink already taken for finalization (`guard.as_mut()` returning `None`). -/
def input_callback (channels : ℕ) (sampleRate : ℚ) (lockOk : Bool)
    (st : ℚ × Option (List ℤ)) (data : List ℚ) : ℚ × Option (List ℤ) :=
  if lockOk then
    match st.2 with
    | some out =>
      let monos := (List.toChunks channels data).map (frame_mono channels)
      let r := process_mono (resample_ratio sampleRate) (st.1, out) monos
      (r.1, some r.2)
    | none => st
  else st

/-! ## Recording controller (`main.rs`) -/

/-- The `RecordingState` slot of `AppState`: output path and the current value
of the shared `stop_flag` atomic.  The worker join handle is represented by
the stop outcome below. -/
structure RecordingState where
  path : String
  stopFlag : Bool
deriving DecidableEq, Repr

/-- Output path built by `start_recording_toggle`:
`temp_dir.join(format!("supavoice_recording_{}.wav", timestamp))`. -/
def recording_output_path (tempDir : String) (timestamp : ℕ) : String :=
  tempDir ++ "/supavoice_recording_" ++ toString timestamp ++ ".wav"

/-- The `start_recording_toggle` command.  The source never inspects the
current slot: it builds a fresh path, spawns a worker with a fresh stop flag
set to `false`, and overwrites `state.recording` unconditionally. -/
def start_recording_toggle (slot : Option RecordingState) (tempDir : String)
    (timestamp : ℕ) : Except String Unit × Option RecordingState :=
  let _ := slot
  (Except.ok (), some ⟨recording_output_path tempDir timestamp, false⟩)

/-- Result of one `stop_recording` call: the command's return value, the slot
left behind, and the session as it was signalled (stop flag stored `true`)
before the worker join. -/
structure StopOutcome where
  result : Except String String
  slot : Option RecordingState
  signalled : Option RecordingState
deriving Repr

/-- The `stop_recording` command: `recording_guard.take()` empties the slot;
with no active state it returns `Err("No active recording")`; otherwise it
stores `true` into the stop flag, joins the worker, and returns the path. -/
def stop_recording (slot : Option RecordingState) : StopOutcome :=
  match slot with
  | none => ⟨Except.error ("No active recording"), none, none⟩
  | some r => ⟨Except.ok r.path, none, some ⟨r.path, true⟩⟩

/-! ## Transcription engine (`transcription/whisper.rs`) -/

/-- Whisper fixed window in samples (`MAX_SAMPLES = 480000` in
`audio_to_mel`, thirty seconds at 16 kHz). -/
def MAX_SAMPLES : ℕ := 480000

/-- Start-of-transcript token (`SOT_TOKEN`). -/
def SOT_TOKEN : ℕ := 50258

/-- End-of-transcript token (`EOT_TOKEN`). -/
def EOT_TOKEN : ℕ := 50257

/-- No-timestamps token (`NO_TIMESTAMPS_TOKEN`). -/
def NO_TIMESTAMPS_TOKEN : ℕ := 50363

/-- Transcribe-task token (`TRANSCRIBE_TOKEN`). -/
def TRANSCRIBE_TOKEN : ℕ := 50359

/-- The pad-or-trim step of `audio_to_mel`: shorter buffers are resized with
trailing zeros to `MAX_SAMPLES`, longer buffers are truncated to it, an exact
fit is left alone. -/
def pad_or_trim (audio : List ℚ) : List ℚ :=
  if audio.length < MAX_SAMPLES then
    audio ++ List.replicate (MAX_SAMPLES - audio.length) 0
  else if audio.length > MAX_SAMPLES then audio.take MAX_SAMPLES
  else audio

/-- The audio buffers on which `transcribe` invokes `decode`: exactly one
call, on the mel input built from the padded/trimmed buffer (`transcribe`
calls `audio_to_mel` once and `decode` once, with no partitioning). -/
def transcribe_decode_inputs (audio : List ℚ) : List (List ℚ) :=
  [pad_or_trim audio]

/-- The transcript text produced by `transcribe`: the single `decode` result
on the padded/trimmed buffer.  `decodeFn` abstracts the mel conversion,
encoder and decoder applied to that buffer. -/
def transcribe_text (decodeFn : List ℚ → String) (audio : List ℚ) : String :=
  decodeFn (pad_or_trim audio)

/-- Duration reported by `transcribe`:
`audio_data.len() as f64 / SAMPLE_RATE as f64`. -/
def audio_duration (audio : List ℚ) : ℚ := (audio.length : ℚ) / SAMPLE_RATE

/-- Chunk count according to the specification's words (section 4.3):
one single-pass decode below 30 seconds, otherwise
`ceil((duration - overlap) / (window - overlap))` with a 30 s window and
1 s overlap.  Stated for comparison against the code's behaviour. -/
def spec_chunk_count (duration : ℚ) : ℕ :=
  if duration < 30 then 1 else ⌈(duration - 1) / (30 - 1)⌉₊

/-- Index of the maximal logit, from the greedy selection in `decode`:
Rust's `max_by` keeps the later element on ties, so the fold replaces the
current best whenever the new value is at least as large. -/
def argmax_last (l : List ℚ) : ℕ :=
  match l with
  | [] => 0
  | x :: xs =>
    (xs.foldl
      (fun acc v =>
        if acc.2.1 ≤ v then (acc.2.2, v, acc.2.2 + 1)
        else (acc.1, acc.2.1, acc.2.2 + 1))
      ((0 : ℕ), x, (1 : ℕ))).1

/-- The autoregressive loop of `decode`, with the loop bound as fuel: each
iteration selects the argmax token of the current logits, stops if it is the
end-of-transcript token, and otherwise appends it.  `logits` abstracts the
decoder forward pass and final projection as a function of the tokens so
far. -/
def decode_loop (logits : List ℕ → List ℚ) : ℕ → List ℕ → List ℕ
  | 0, tokens => tokens
  | fuel + 1, tokens =>
    let next := argmax_last (logits tokens)
    if next = EOT_TOKEN then tokens
    else decode_loop logits fuel (tokens ++ [next])

/-- Initial token sequence of `decode`: start-of-transcript, English
language token 50259, transcribe task, no-timestamps. -/
def initial_tokens : List ℕ :=
  [SOT_TOKEN, 50259, TRANSCRIBE_TOKEN, NO_TIMESTAMPS_TOKEN]

/-- The token sequence produced by `decode`: the loop runs for at most
`sample_len = config.max_target_positions / 2` iterations starting from the
special tokens. -/
def decode_tokens (logits : List ℕ → List ℚ) (maxTargetPositions : ℕ) :
    List ℕ :=
  decode_loop logits (maxTargetPositions / 2) initial_tokens

/-! ## Artifact loading (`load_audio` in `transcription/whisper.rs`) -/

/-- Raw WAV payload: 16-bit integer samples or float samples, matching the
two `spec.sample_format` arms of `load_audio`. -/
inductive SampleData where
  | int (samples : List ℤ)
  | float (samples : List ℚ)

/-- The WAV header fields `load_audio` inspects. -/
structure WavSpecM where
  channels : ℕ
  sampleRate : ℕ
deriving DecidableEq, Repr

/-- Outcome of `load_audio`: the loaded buffer, the early bail on a sample
rate mismatch, or the panic that `chunks(2)` indexing hits on a stereo file
with an odd sample count. -/
inductive LoadOutcome where
  | ok (samples : List ℚ)
  | formatError (msg : String)
  | panicked
deriving DecidableEq

/-- Integer-sample normalization in `load_audio`:
`s as f32 / i16::MAX as f32`, i.e. division by 32767. -/
def scale_int_sample (v : ℤ) : ℚ := (v : ℚ) / 32767

/-- Stereo downmix of `load_audio`: `chunks(2)` then
`(chunk[0] + chunk[1]) / 2.0`; a trailing lone sample makes the Rust code
index out of bounds, modelled as `none`. -/
def avg_pairs : List ℚ → Option (List ℚ)
  | [] => some []
  | [_] => none
  | a :: b :: rest => (avg_pairs rest).map (fun l => (a + b) / 2 :: l)

/-- The `load_audio` function: bail out unless the container rate is 16 kHz,
normalize integer samples by 32767 (floats pass through unchanged), then
average pairs when the file is stereo. -/
def load_audio (spec : WavSpecM) (data : SampleData) : LoadOutcome :=
  if spec.sampleRate ≠ SAMPLE_RATE then
    LoadOutcome.formatError
      ("Audio must be 16kHz (got " ++ toString spec.sampleRate ++
        "Hz). Please resample.")
  else
    let samples :=
      match data with
      | SampleData.int s => s.map scale_int_sample
      | SampleData.float s => s
    if spec.channels = 2 then
      match avg_pairs samples with
      | some mono => LoadOutcome.ok mono
      | none => LoadOutcome.panicked
    else LoadOutcome.ok samples

/-! ## Model resolution (`models/registry.rs`, `transcribe_audio` in
`main.rs`) -/

/-- A model record, reduced to the fields `transcribe_audio` consults. -/
structure ModelRecordM where
  id : String
  path : Option String
deriving DecidableEq, Repr

/-- The identifiers of the hardcoded catalog `ModelRegistry::new` installs. -/
def catalog_ids : List String :=
  ["whisper-small-en", "whisper-base-en", "whisper-small",
   "gemma-2-2b-instruct", "qwen2-1.5b-instruct"]

/-- The registry lookup `ModelRegistry::get_model`: known identifiers yield
their record (with the installation path, if any), unknown ones an error.
`paths` gives each identifier's installed path, as probed on disk. -/
def get_model (paths : String → Option String) (id : String) :
    Except String ModelRecordM :=
  if catalog_ids.contains id then Except.ok ⟨id, paths id⟩
  else Except.error ("Model not found: " ++ id)

/-- The auto-selection arm of `transcribe_audio` (no explicit preference):
nested checks over whisper-base-en, whisper-small-en, whisper-small. -/
def whisper_auto_model_id (paths : String → Option String) : String :=
  match get_model paths ("whisper-base-en") with
  | Except.ok model =>
    if model.path.isSome then "whisper-base-en"
    else
      match get_model paths ("whisper-small-en") with
      | Except.ok m2 =>
        if m2.path.isSome then "whisper-small-en" else "whisper-small"
      | Except.error _ => "whisper-small"
  | Except.error _ => "whisper-base-en"

/-- Model-id resolution of `transcribe_audio`: an explicit preference must
name an installed catalog model; otherwise the auto-selection order runs. -/
def resolve_model_id (pref : Option String) (paths : String → Option String) :
    Except String String :=
  match pref with
  | some preferred =>
    match get_model paths preferred with
    | Except.ok model =>
      if model.path.isSome then Except.ok preferred
      else Except.error ("Selected model " ++ preferred ++ " is not installed")
    | Except.error _ =>
      Except.error ("Selected model " ++ preferred ++ " not found")
  | none => Except.ok (whisper_auto_model_id paths)

/-- The model-resolution phase of `transcribe_audio`, up to the point where
audio work would begin: after resolving the id it fetches the record and
requires a path (`model.path.ok_or("Model not installed")?`).  An `ok` value
is the installed path handed to the transcriber; every `error` is returned
before any audio is loaded. -/
def transcribe_audio_model_path (pref : Option String)
    (paths : String → Option String) : Except String String :=
  match resolve_model_id pref paths with
  | Except.error e => Except.error e
  | Except.ok id =>
    match get_model paths id with
    | Except.error e => Except.error e
    | Except.ok m =>
      match m.path with
      | some p => Except.ok p
      | none => Except.error ("Model not installed")

/-- Resolution order according to the specification's words (section 4.4):
walk the fixed ordered list and select the first installed path.  Stated for
comparison against the code's behaviour. -/
def spec_first_installed (paths : String → Option String) : Option String :=
  match paths ("whisper-base-en") with
  | some p => some p
  | none =>
    match paths ("whisper-small-en") with
    | some p => some p
    | none => paths ("whisper-small")

/-! ## Helper lemmas -/

/-- Unfolding of the batch fold by one frame. -/
lemma process_mono_cons (ratio : ℚ) (st : ℚ × List ℤ) (m : ℚ) (ms : List ℚ) :
    process_mono ratio st (m :: ms) = process_mono ratio (resampleStep ratio st m) ms := rfl

/-- Invariant of the resampling fold for downsampling ratios: the accumulator
always equals the consumed input times `1/ratio` minus the emitted count, and
stays inside `[0, 1 + 1/ratio)`. -/
lemma process_mono_invariant (ratio : ℚ) (hr : 1 ≤ ratio) :
    ∀ (monos : List ℚ) (idx : ℚ) (out : List ℤ),
      0 ≤ idx → idx < 1 + 1 / ratio →
      ((process_mono ratio (idx, out) monos).1
          + ((process_mono ratio (idx, out) monos).2.length : ℚ)
        = idx + (out.length : ℚ) + (monos.length : ℚ) * (1 / ratio))
      ∧ 0 ≤ (process_mono ratio (idx, out) monos).1
      ∧ (process_mono ratio (idx, out) monos).1 < 1 + 1 / ratio := by
  have hpos : (0 : ℚ) < ratio := lt_of_lt_of_le one_pos hr
  have hinv_pos : (0 : ℚ) < 1 / ratio := by positivity
  have hinv_le : 1 / ratio ≤ 1 := by
    rw [div_le_one hpos]; exact hr
  intro monos
  induction monos with
  | nil =>
    intro idx out h0 h1
    refine ⟨by simp [process_mono], by simpa [process_mono] using h0,
      by simpa [process_mono] using h1⟩
  | cons m ms ih =>
    intro idx out h0 h1
    rw [process_mono_cons]
    by_cases hc : 1 ≤ idx
    · have hstep : resampleStep ratio (idx, out) m
          = (idx - 1 + 1 / ratio, out ++ [toI16Sample m]) := by
        simp [resampleStep, hc]
      rw [hstep]
      obtain ⟨heq, hlo, hhi⟩ := ih (idx - 1 + 1 / ratio) (out ++ [toI16Sample m])
        (by linarith) (by linarith)
      refine ⟨?_, hlo, hhi⟩
      rw [heq]
      simp only [List.length_append, List.length_cons, List.length_nil]
      push_cast
      ring
    · have hstep : resampleStep ratio (idx, out) m = (idx + 1 / ratio, out) := by
        simp [resampleStep, hc]
      rw [hstep]
      have hlt : idx < 1 := lt_of_not_le hc
      obtain ⟨heq, hlo, hhi⟩ := ih (idx + 1 / ratio) out (by linarith) (by linarith)
      refine ⟨?_, hlo, hhi⟩
      rw [heq]
      simp only [List.length_cons]
      push_cast
      ring

/-- The decode loop adds at most `fuel` tokens. -/
lemma decode_loop_length_le (logits : List ℕ → List ℚ) :
    ∀ (fuel : ℕ) (tokens : List ℕ),
      (decode_loop logits fuel tokens).length ≤ tokens.length + fuel := by
  intro fuel
  induction fuel with
  | zero => intro tokens; simp [decode_loop]
  | succ n ih =>
    intro tokens
    rw [decode_loop]
    split_ifs with h
    · omega
    · calc (decode_loop logits n (tokens ++ [argmax_last (logits tokens)])).length
          ≤ (tokens ++ [argmax_last (logits tokens)]).length + n := ih _
        _ = tokens.length + (n + 1) := by simp; omega
        _ ≤ tokens.length + (n + 1) := le_rfl

/-- The decode loop never appends the end-of-transcript token: it stops
instead. -/
lemma decode_loop_no_eot (logits : List ℕ → List ℚ) :
    ∀ (fuel : ℕ) (tokens : List ℕ),
      EOT_TOKEN ∉ tokens → EOT_TOKEN ∉ decode_loop logits fuel tokens := by
  intro fuel
  induction fuel with
  | zero => intro tokens h; simpa [decode_loop] using h
  | succ n ih =>
    intro tokens h
    rw [decode_loop]
    split_ifs with hnext
    · exact h
    · refine ih _ ?_
      intro hmem
      rcases List.mem_append.mp hmem with hmem | hmem
      · exact h hmem
      · exact hnext ((List.mem_singleton.mp hmem).symm)

/-- Behaviour of the decode loop under logits that always rank token 0
highest: the loop never sees the end-of-transcript token, so it runs its
full fuel and appends one zero token per iteration. -/
lemma decode_loop_const : ∀ (fuel : ℕ) (tokens : List ℕ),
    decode_loop (fun _ => [(1 : ℚ), 0]) fuel tokens = tokens ++ List.replicate fuel 0 := by
  intro fuel
  induction fuel with
  | zero => intro tokens; simp [decode_loop]
  | succ n ih =>
    intro tokens
    have hax : argmax_last [(1 : ℚ), 0] = 0 := by norm_num [argmax_last]
    have hstep : decode_loop (fun _ => [(1 : ℚ), 0]) (n + 1) tokens
        = decode_loop (fun _ => [(1 : ℚ), 0]) n (tokens ++ [0]) := by
      simp [decode_loop, hax, EOT_TOKEN]
    rw [hstep, ih]
    simp [List.replicate_succ]

/-- The pad-or-trim step always yields exactly thirty seconds of samples. -/
lemma pad_or_trim_length (audio : List ℚ) : (pad_or_trim audio).length = MAX_SAMPLES := by
  unfold pad_or_trim
  split_ifs with h1 h2
  · simp; omega
  · simp [List.length_take]; omega
  · omega

/-- A buffer of at least thirty seconds is trimmed to its first
`MAX_SAMPLES` samples. -/
lemma pad_or_trim_of_ge (audio : List ℚ) (h : MAX_SAMPLES ≤ audio.length) :
    pad_or_trim audio = audio.take MAX_SAMPLES := by
  unfold pad_or_trim
  split_ifs with h1 h2
  · omega
  · rfl
  · have hlen : audio.length = MAX_SAMPLES := by omega
    rw [← hlen, List.take_length]

/-- Bounds on the integer-sample normalization: 16-bit values map into
`[-32768/32767, 1]`. -/
lemma scale_int_sample_bounds (v : ℤ) (h1 : -32768 ≤ v) (h2 : v ≤ 32767) :
    (-32768 : ℚ) / 32767 ≤ scale_int_sample v ∧ scale_int_sample v ≤ 1 := by
  unfold scale_int_sample
  constructor
  · rw [div_le_div_iff_of_pos_right (by norm_num : (0 : ℚ) < 32767)]
    exact_mod_cast h1
  · rw [div_le_one (by norm_num : (0 : ℚ) < 32767)]
    exact_mod_cast h2

/-- Stereo pair averaging keeps every output inside any interval containing
all inputs. -/
lemma avg_pairs_bounds (lo hi : ℚ) :
    ∀ (l m : List ℚ), avg_pairs l = some m →
      (∀ x ∈ l, lo ≤ x ∧ x ≤ hi) → ∀ y ∈ m, lo ≤ y ∧ y ≤ hi
  | [], m => by
    intro h hx y hy
    simp [avg_pairs] at h
    subst h
    simp at hy
  | [a], m => by
    intro h hx y hy
    simp [avg_pairs] at h
  | a :: b :: rest, m => by
    intro h hx y hy
    rcases hrest : avg_pairs rest with _ | l2
    · rw [avg_pairs, hrest] at h
      simp at h
    · rw [avg_pairs, hrest] at h
      simp at h
      subst h
      rcases List.mem_cons.mp hy with hy1 | hy2
      · subst hy1
        have ha := hx a (by simp)
        have hb := hx b (by simp)
        constructor
        · linarith [ha.1, hb.1]
        · linarith [ha.2, hb.2]
      · exact avg_pairs_bounds lo hi rest l2 hrest
          (fun x hxm => hx x (by simp [hxm])) y hy2

/-! ## Claim theorems -/

/-- Claim C1, counterexample: a 45-second buffer (720000 samples at 16 kHz)
is at least 30 seconds long, and the specification's chunking formula
demands `ceil((45-1)/(30-1)) = 2` decodes, but `transcribe` performs exactly
one decode (over the truncated buffer) — the claimed chunked path does not
exist in the code. -/
theorem transcribe_no_chunking_counterexample :
    audio_duration (List.replicate 720000 (0 : ℚ)) = 45
    ∧ spec_chunk_count (audio_duration (List.replicate 720000 (0 : ℚ))) = 2
    ∧ (transcribe_decode_inputs (List.replicate 720000 (0 : ℚ))).length = 1
    ∧ (transcribe_decode_inputs (List.replicate 720000 (0 : ℚ))).length
        ≠ spec_chunk_count (audio_duration (List.replicate 720000 (0 : ℚ))) := by
  have hd : audio_duration (List.replicate 720000 (0 : ℚ)) = 45 := by
    norm_num [audio_duration, SAMPLE_RATE]
  have hs : spec_chunk_count 45 = 2 := by
    rw [spec_chunk_count, if_neg (by norm_num)]
    norm_num
    rw [Nat.ceil_eq_iff (by norm_num)]
    constructor <;> norm_num
  refine ⟨hd, by rw [hd]; exact hs, rfl, ?_⟩
  rw [hd, hs]
  decide

/-- Claim C1, amended: for every audio buffer, regardless of duration, the
engine runs exactly one single-pass decode over the buffer padded or
truncated to exactly 30 seconds (480000 samples); the transcript is that
single decode's text, with no chunk partitioning or concatenation. -/
theorem transcribe_single_pass (decodeFn : List ℚ → String) (audio : List ℚ) :
    transcribe_decode_inputs audio = [pad_or_trim audio]
    ∧ transcribe_text decodeFn audio = decodeFn (pad_or_trim audio)
    ∧ (pad_or_trim audio).length = MAX_SAMPLES :=
  ⟨rfl, rfl, pad_or_trim_length audio⟩

/-- Claim C2, counterexample: starting while a Recording State exists does
not fail — the command returns success and replaces the slot, so the
existing session's state is not left unchanged. -/
theorem start_recording_conflict_counterexample :
    (start_recording_toggle (some ⟨"/tmp/old.wav", false⟩) "/tmp" 7).1 = Except.ok ()
    ∧ (start_recording_toggle (some ⟨"/tmp/old.wav", false⟩) "/tmp" 7).2
        ≠ some ⟨"/tmp/old.wav", false⟩ := by
  refine ⟨rfl, ?_⟩
  decide

/-- Claim C2, amended: starting a recording never fails with a conflict;
whatever the current slot holds, the command succeeds and installs a fresh
Recording State with the new timestamped path and a stop flag set to false,
discarding (without signalling) any existing session — the result is
independent of the previous slot contents. -/
theorem start_recording_overwrites (slot other : Option RecordingState)
    (tempDir : String) (timestamp : ℕ) :
    start_recording_toggle slot tempDir timestamp
      = (Except.ok (), some ⟨recording_output_path tempDir timestamp, false⟩)
    ∧ start_recording_toggle slot tempDir timestamp
      = start_recording_toggle other tempDir timestamp :=
  ⟨rfl, rfl⟩

/-- Claim C3, counterexample: at an 8000 Hz input rate the accumulator can
consume at most one unit per input sample, so the converter cannot
upsample: two input samples (duration 2/8000 s, expected
`2/8000 * 16000 = 4` output samples) emit only one sample, missing the
claimed one-output-sample tolerance by two. -/
theorem resample_count_counterexample :
    (process_mono (resample_ratio 8000) (0, []) [0, 0]).2.length = 1
    ∧ ¬ (((2 : ℚ) / 8000) * 16000
          - ((process_mono (resample_ratio 8000) (0, []) [0, 0]).2.length : ℚ) ≤ 1) := by
  have h : (process_mono (resample_ratio 8000) (0, []) [0, 0]).2.length = 1 := by
    norm_num [process_mono, resampleStep, resample_ratio, toI16Sample, ratTrunc]
  refine ⟨h, ?_⟩
  rw [h]
  norm_num

/-- Claim C3, amended: the phase accumulator works as described (initialized
to 0, advanced by `1/ratio` per mono input sample, emitting exactly when it
reaches 1 before accumulating), but the output-count guarantee holds only
for input rates at or above the 16 kHz target (`ratio ≥ 1`), and with a
tolerance of `1 + 1/ratio` (below two) output samples: the emitted count
never exceeds `n * (1/ratio)` (which equals duration times 16000) and
undershoots it by less than `1 + 1/ratio`.  For input rates below the
target, at most one sample is emitted per input sample, so the count falls
arbitrarily short. -/
theorem resample_count_bound (monos : List ℚ) (ratio : ℚ) (hr : 1 ≤ ratio) :
    ((process_mono ratio (0, []) monos).2.length : ℚ)
        ≤ (monos.length : ℚ) * (1 / ratio)
    ∧ (monos.length : ℚ) * (1 / ratio)
        < ((process_mono ratio (0, []) monos).2.length : ℚ) + 1 + 1 / ratio := by
  have hpos : (0 : ℚ) < ratio := lt_of_lt_of_le one_pos hr
  have hinv_pos : (0 : ℚ) < 1 / ratio := by positivity
  obtain ⟨heq, hlo, hhi⟩ := process_mono_invariant ratio hr monos 0 [] le_rfl
    (by linarith)
  simp only [List.length_nil, Nat.cast_zero, add_zero, zero_add] at heq
  constructor
  · linarith
  · linarith

/-- Claim C3, witness: the bound instantiated at a 44100 Hz input
(`ratio = 441/160`) and a three-sample batch. -/
theorem resample_count_bound_witness :
    ((process_mono (441 / 160) (0, []) [(0 : ℚ), 0, 0]).2.length : ℚ)
        ≤ (([(0 : ℚ), 0, 0] : List ℚ).length : ℚ) * (1 / (441 / 160))
    ∧ (([(0 : ℚ), 0, 0] : List ℚ).length : ℚ) * (1 / (441 / 160))
        < ((process_mono (441 / 160) (0, []) [(0 : ℚ), 0, 0]).2.length : ℚ) + 1
            + 1 / (441 / 160) :=
  resample_count_bound [(0 : ℚ), 0, 0] (441 / 160) (by norm_num)

/-- Claim C4, counterexample: with logits that always rank a non-EOT token
highest, decoding stops after exactly `448 / 2 = 224` generated tokens
(4 special tokens plus 224), and raising the configured limit to 450 yields
one more token — so the loop stopped because of the token-count limit, not
because the end-of-transcript token was produced. -/
theorem decode_cap_counterexample :
    (decode_tokens (fun _ => [(1 : ℚ), 0]) 448).length = 228
    ∧ (decode_tokens (fun _ => [(1 : ℚ), 0]) 450).length = 229 := by
  constructor <;>
    · rw [decode_tokens, decode_loop_const, List.length_append, List.length_replicate]
      norm_num [initial_tokens]

/-- Claim C4, amended: the decode step is deterministic greedy search (the
loop appends the argmax token of each step's logits, as embedded in
`decode_loop`), but the output length is capped: the token sequence never
exceeds the 4 special tokens plus `max_target_positions / 2` generated
tokens, and the end-of-transcript token itself is never appended. -/
theorem decode_greedy_capped (logits : List ℕ → List ℚ) (maxTargetPositions : ℕ) :
    (decode_tokens logits maxTargetPositions).length ≤ 4 + maxTargetPositions / 2
    ∧ EOT_TOKEN ∉ decode_tokens logits maxTargetPositions := by
  constructor
  · have h := decode_loop_length_le logits (maxTargetPositions / 2) initial_tokens
    rw [decode_tokens]
    simpa [initial_tokens] using h
  · exact decode_loop_no_eot logits (maxTargetPositions / 2) initial_tokens (by decide)

/-- Claim C5: the transcript depends only on the first 480000 samples
(30 seconds at 16 kHz) of the loaded buffer — longer buffers are truncated
and shorter ones zero-padded before the mel conversion, so two buffers of at
least that length agreeing on their first 480000 samples produce the same
transcription. -/
theorem transcribe_first_window_only (decodeFn : List ℚ → String)
    (a b : List ℚ) (ha : MAX_SAMPLES ≤ a.length) (hb : MAX_SAMPLES ≤ b.length)
    (hab : a.take MAX_SAMPLES = b.take MAX_SAMPLES) :
    transcribe_text decodeFn a = transcribe_text decodeFn b := by
  unfold transcribe_text
  rw [pad_or_trim_of_ge a ha, pad_or_trim_of_ge b hb, hab]

/-- Claim C5, witness: a 480000-sample zero buffer and a 480001-sample zero
buffer transcribe identically. -/
theorem transcribe_first_window_only_witness :
    transcribe_text (fun _ => "t") (List.replicate 480000 (0 : ℚ))
      = transcribe_text (fun _ => "t") (List.replicate 480001 (0 : ℚ)) :=
  transcribe_first_window_only (fun _ => "t") _ _
    (by norm_num [MAX_SAMPLES])
    (by norm_num [MAX_SAMPLES])
    (by rw [List.take_replicate, List.take_replicate]; norm_num [MAX_SAMPLES])

/-- Claim C6: when the non-blocking lock attempt on the sink fails, the
device callback drops the whole batch — the accumulator and the sink are
returned unchanged, with no sample of the batch written or queued. -/
theorem callback_drops_batch_on_contention (channels : ℕ) (sampleRate : ℚ)
    (st : ℚ × Option (List ℤ)) (data : List ℚ) :
    input_callback channels sampleRate false st data = st := rfl

/-- Claim C7: with no explicit model preference, `transcribe_audio` resolves
to the first identifier of the fixed order (whisper-base-en,
whisper-small-en, whisper-small) whose installation path exists, and when
none of them is installed it fails with the model-unavailable error — all
before any audio is loaded (the resolution consumes no audio data). -/
theorem auto_model_resolution (paths : String → Option String) :
    transcribe_audio_model_path none paths
      = (match spec_first_installed paths with
         | some p => Except.ok p
         | none => Except.error ("Model not installed")) := by
  have hb : get_model paths ("whisper-base-en")
      = Except.ok ⟨"whisper-base-en", paths ("whisper-base-en")⟩ := by
    rw [get_model, if_pos (by decide)]
  have hse : get_model paths ("whisper-small-en")
      = Except.ok ⟨"whisper-small-en", paths ("whisper-small-en")⟩ := by
    rw [get_model, if_pos (by decide)]
  have hsm : get_model paths ("whisper-small")
      = Except.ok ⟨"whisper-small", paths ("whisper-small")⟩ := by
    rw [get_model, if_pos (by decide)]
  rcases hpb : paths ("whisper-base-en") with _ | pb
  all_goals rcases hps : paths ("whisper-small-en") with _ | ps
  all_goals rcases hpm : paths ("whisper-small") with _ | pm
  all_goals
    simp [transcribe_audio_model_path, resolve_model_id, whisper_auto_model_id,
      spec_first_installed, hb, hse, hsm, hpb, hps, hpm]

/-- Claim C8: stopping with no Recording State fails with the
conflict error; a successful stop signals the cancellation flag, returns
the artifact path, and empties the slot, so every subsequent stop is again
rejected rather than silently accepted. -/
theorem stop_recording_behavior (r : RecordingState) :
    (stop_recording none).result = Except.error ("No active recording")
    ∧ (stop_recording (some r)).result = Except.ok r.path
    ∧ (stop_recording (some r)).signalled = some ⟨r.path, true⟩
    ∧ (stop_recording (stop_recording (some r)).slot).result
        = Except.error ("No active recording") :=
  ⟨rfl, rfl, rfl, rfl⟩

/-- Claim C9: loading an artifact whose container sample rate differs from
the fixed 16 kHz target fails immediately with the format-mismatch error,
for every payload, before any sample is converted — the load path performs
no resampling. -/
theorem load_audio_rejects_rate (spec : WavSpecM) (data : SampleData)
    (h : spec.sampleRate ≠ SAMPLE_RATE) :
    load_audio spec data
      = LoadOutcome.formatError
          ("Audio must be 16kHz (got " ++ toString spec.sampleRate
            ++ "Hz). Please resample.") := by
  rw [load_audio.eq_def, if_pos h]

/-- Claim C9, witness: a 44100 Hz mono artifact is rejected with the
expected message. -/
theorem load_audio_rejects_rate_witness :
    load_audio ⟨1, 44100⟩ (SampleData.int []) =
      LoadOutcome.formatError ("Audio must be 16kHz (got 44100Hz). Please resample.") := by
  rw [load_audio_rejects_rate ⟨1, 44100⟩ (SampleData.int []) (by decide)]
  decide

/-- Claim C10, counterexample: the minimum 16-bit sample -32768 is divided
by 32767, producing -32768/32767, which is strictly below -1 — so not every
loaded sample lies within the closed interval [-1, 1]. -/
theorem load_audio_below_neg_one_counterexample :
    load_audio ⟨1, 16000⟩ (SampleData.int [-32768]) = LoadOutcome.ok [(-32768 : ℚ) / 32767]
    ∧ ((-32768 : ℚ) / 32767) < -1 := by
  constructor
  · norm_num [load_audio, scale_int_sample, SAMPLE_RATE]
  · norm_num

/-- Claim C10, amended: every sample of a buffer successfully loaded from
integer-format input lies within `[-32768/32767, 1]` — an interval that
exceeds [-1, 1] on the left only for the minimum value -32768; stereo
averaging stays within the same interval. -/
theorem load_audio_sample_bounds (spec : WavSpecM) (s : List ℤ) (out : List ℚ)
    (hok : load_audio spec (SampleData.int s) = LoadOutcome.ok out)
    (hs : ∀ v ∈ s, -32768 ≤ v ∧ v ≤ 32767) :
    ∀ q ∈ out, (-32768 : ℚ) / 32767 ≤ q ∧ q ≤ 1 := by
  have hmap : ∀ x ∈ s.map scale_int_sample, (-32768 : ℚ) / 32767 ≤ x ∧ x ≤ 1 := by
    intro x hx
    rcases List.mem_map.mp hx with ⟨v, hv, rfl⟩
    exact scale_int_sample_bounds v (hs v hv).1 (hs v hv).2
  rw [load_audio.eq_def] at hok
  by_cases hrate : spec.sampleRate ≠ SAMPLE_RATE
  · rw [if_pos hrate] at hok
    exact absurd hok (by simp)
  · rw [if_neg hrate] at hok
    by_cases hch : spec.channels = 2
    · rw [if_pos hch] at hok
      rcases hp : avg_pairs (s.map scale_int_sample) with _ | mono
      · rw [hp] at hok
        simp at hok
      · rw [hp] at hok
        simp at hok
        subst hok
        exact avg_pairs_bounds _ _ _ _ hp hmap
    · rw [if_neg hch] at hok
      simp at hok
      subst hok
      exact hmap

/-- Claim C10, witness: the bound applied to the buffer loaded from the
single sample -32768. -/
theorem load_audio_sample_bounds_witness :
    (-32768 : ℚ) / 32767 ≤ (-32768 : ℚ) / 32767 ∧ (-32768 : ℚ) / 32767 ≤ 1 := by
  have h := load_audio_sample_bounds ⟨1, 16000⟩ [(-32768 : ℤ)] [(-32768 : ℚ) / 32767]
    (by norm_num [load_audio, scale_int_sample, SAMPLE_RATE])
    (by intro v hv; simp only [List.mem_singleton] at hv; subst hv
        constructor <;> norm_num)
  exact h ((-32768 : ℚ) / 32767) (by simp)

end Supavoice
